import Mathlib

/-
Shallow embedding of the GoodJobTech/tickler job scheduler.

Authoritative source: src/tickler.go (the current iteration of the design);
src/unnamed/part_000 is an earlier iteration of the same scheduler and is
referred to only where a claim cites it.

Modelling conventions:
- `status` is Go `int`; we keep the three constants as `Nat` values.
- A job body `func() error` is modelled by the one bit of it the scheduler
  observes: whether it returns an error (`FErr : Bool`).
- A `context.Context` is modelled by its observable cancellation state
  (`ctxDone`, `ctxCancelled : Bool`).
- Each event's two channels (`ch`, `resultCh`) are named by a numeric `id`;
  the scheduler maps (`jobsWaitFor`, `resultCh`) store these ids, mirroring
  the Go maps from job name to channel slices. Go maps are association
  lists with overwrite-on-set and missing-key lookup yielding the zero
  value (nil slice = `[]`).
- Buffered channels used as counters (`sema`, `loopSignal`) are modelled by
  their length (`semaLen`, `loopSignal`) and capacity.
-/

namespace Tickler

abbrev JobName := String

def statusUndefined : Nat := 0

def statusSuccess : Nat := 1

def statusFailure : Nat := 2

def defaultRequestLimit : Nat := 100

/-- Go struct `eventOptions` of src/tickler.go. -/
structure eventOptions where
  waitFor : List JobName
  ifSuccess : List JobName
  ifFailure : List JobName
deriving DecidableEq, Repr

/-- The zero value `&eventOptions\x7b\x7d` that `newEvent` starts from. -/
def emptyEventOptions : eventOptions :=
  { waitFor := [], ifSuccess := [], ifFailure := [] }

/-- An `EventOption` mutates the options record (`apply` in the source). -/
def EventOption := eventOptions → eventOptions

/-- Go `WaitForJobs`: assigns (not appends) the `waitFor` slice. -/
def WaitForJobs (jobNames : List JobName) : EventOption :=
  fun t => { t with waitFor := jobNames }

/-- Go `IfSuccess`: assigns (not appends) the `ifSuccess` slice. -/
def IfSuccess (jobNames : List JobName) : EventOption :=
  fun t => { t with ifSuccess := jobNames }

/-- Go `IfFailure`: assigns (not appends) the `ifFailure` slice. -/
def IfFailure (jobNames : List JobName) : EventOption :=
  fun t => { t with ifFailure := jobNames }

/-- The `for _, opt := range opts` loop of `newEvent`. -/
def applyOpts (opts : List EventOption) (t : eventOptions) : eventOptions :=
  opts.foldl (fun acc o => o acc) t

/-- Go struct `Request` (the context-free body `F` is modelled by whether
it returns an error). -/
structure Request where
  FErr : Bool
  Job : JobName
deriving DecidableEq, Repr

/-- Go struct `Event`. `id` names this event's `ch`/`resultCh` channels. -/
structure Event where
  fnOpts : eventOptions
  Job : JobName
  FErr : Bool
  ctxDone : Bool
  result : Nat
  id : Nat
deriving DecidableEq, Repr

/-- Go `newEvent`: note the `result` field is initialised to
`statusSuccess`, and the options start from the zero value. -/
def newEvent (ctxDone : Bool) (request : Request) (opts : List EventOption)
    (id : Nat) : Event :=
  { fnOpts := applyOpts opts emptyEventOptions
    Job := request.Job
    FErr := request.FErr
    ctxDone := ctxDone
    result := statusSuccess
    id := id }

/-- Go map lookup `m[k]` with zero value `d` for a missing key. -/
def lookupD {α : Type} (m : List (JobName × α)) (k : JobName) (d : α) : α :=
  match m with
  | [] => d
  | (k1, v) :: rest => if k1 = k then v else lookupD rest k d

/-- Go map assignment `m[k] = v` (overwrite or add). -/
def setA {α : Type} (m : List (JobName × α)) (k : JobName) (v : α) :
    List (JobName × α) :=
  match m with
  | [] => [(k, v)]
  | (k1, v1) :: rest =>
    if k1 = k then (k, v) :: rest else (k1, v1) :: setA rest k v

/-- Go `delete(m, k)`. -/
def eraseA {α : Type} (m : List (JobName × α)) (k : JobName) :
    List (JobName × α) :=
  match m with
  | [] => []
  | (k1, v1) :: rest =>
    if k1 = k then eraseA rest k else (k1, v1) :: eraseA rest k

/-- Go `m[k] = append(m[k], v)` on a map of channel slices. -/
def appendA (m : List (JobName × List Nat)) (k : JobName) (v : Nat) :
    List (JobName × List Nat) :=
  setA m k (lookupD m k [] ++ [v])

/-- Go struct `Tickler` plus the channel lengths/capacities it owns:
`semaCap`/`semaLen` are `cap`/`len` of `options.sema`, `loopSignal` is the
number of pending wakes in the `loopSignal` channel, and `ctxCancelled` is
the observable cancellation state of `s.ctx`. -/
structure TicklerState where
  queue : List Event
  semaCap : Nat
  semaLen : Nat
  loopSignal : Nat
  ctxCancelled : Bool
  currentJobs : List (JobName × Bool)
  jobsWaitFor : List (JobName × List Nat)
  resultCh : List (JobName × List Nat)
deriving DecidableEq, Repr

/-- Go `tickleLoop`: a non-blocking send into the `loopSignal` channel,
whose capacity is `defaultRequestLimit` (fixed by `New`); the wake is
dropped exactly when the channel is full. -/
def tickleLoop (s : TicklerState) : TicklerState :=
  if s.loopSignal < defaultRequestLimit then
    { s with loopSignal := s.loopSignal + 1 }
  else s

/-- Go `EnqueueWithContext`: registers `currentJobs` and the `waitFor`
completion channels only (no result-channel registration appears in the
source), pushes the event, and tickles the loop. -/
def EnqueueWithContext (s : TicklerState) (ctxDone : Bool) (request : Request)
    (opts : List EventOption) (id : Nat) : TicklerState :=
  let ev := newEvent ctxDone request opts id
  let s1 := { s with currentJobs := setA s.currentJobs request.Job true }
  let s2 := { s1 with
    jobsWaitFor :=
      ev.fnOpts.waitFor.foldl (fun m v => appendA m v ev.id) s1.jobsWaitFor }
  let s3 := { s2 with queue := s2.queue ++ [ev] }
  tickleLoop s3

/-- Go `Enqueue`: like `EnqueueWithContext` with a background context, and
additionally registers the event's `resultCh` under each name in
`ifSuccess` — and only `ifSuccess`; the `ifFailure` names are not
registered anywhere in the source. -/
def Enqueue (s : TicklerState) (request : Request) (opts : List EventOption)
    (id : Nat) : TicklerState :=
  let ev := newEvent false request opts id
  let s1 := { s with currentJobs := setA s.currentJobs request.Job true }
  let s2 := { s1 with
    jobsWaitFor :=
      ev.fnOpts.waitFor.foldl (fun m v => appendA m v ev.id) s1.jobsWaitFor }
  let s3 := { s2 with
    resultCh :=
      ev.fnOpts.ifSuccess.foldl (fun m v => appendA m v ev.id) s2.resultCh }
  let s4 := { s3 with queue := s3.queue ++ [ev] }
  tickleLoop s4

/-- Result of Go `removeJob`: the updated state together with the channel
ids the two fan-out loops sent to (read from the maps before deletion). -/
structure RemoveResult where
  state : TicklerState
  completionTargets : List Nat
  resultTargets : List Nat

/-- Go `removeJob`: fans the completion signal out to `jobsWaitFor[Job]`
and the result out to `resultCh[Job]`, then deletes `jobsWaitFor[Job]` and
`currentJobs[Job]`; the `resultCh` map entry is not deleted in the
source. -/
def removeJob (s : TicklerState) (event : Event) : RemoveResult :=
  { completionTargets := lookupD s.jobsWaitFor event.Job []
    resultTargets := lookupD s.resultCh event.Job []
    state := { s with
      jobsWaitFor := eraseA s.jobsWaitFor event.Job
      currentJobs := eraseA s.currentJobs event.Job } }

/-- Go `New`: fresh scheduler; both the `sema` and `loopSignal` channels
are created with capacity `defaultRequestLimit`; `New` takes no
arguments. -/
def New : TicklerState :=
  { queue := []
    semaCap := defaultRequestLimit
    semaLen := 0
    loopSignal := 0
    ctxCancelled := false
    currentJobs := []
    jobsWaitFor := []
    resultCh := [] }

/-- Go `Stop`: derives a child of `s.ctx` via `WithCancel`, immediately
cancels it (the deferred `cancel`), and stores it back into `s.ctx`.
Observably, `s.ctx` is cancelled after `Stop` returns, whatever its prior
state: a child of a cancelled context is cancelled, and the deferred
`cancel` cancels a fresh child. -/
def Stop (s : TicklerState) : TicklerState :=
  { s with ctxCancelled := true }

/-- A signal a worker's `select` can receive: a completion tick on
`event.ch`, or a result value on `event.resultCh`. -/
inductive Signal
  | done : Signal
  | res : Nat → Signal
deriving DecidableEq, Repr

/-- Go struct `eventResults` (fields are Go `int`, so `Int` here: the
counters in `process` can go negative). -/
structure eventResults where
  SucceededEvents : Int
  FailedEvents : Int
  TotalEvents : Int
deriving DecidableEq, Repr

/-- The `for` wait loop of Go `process`, consuming a trace of received
signals. It exits once `cnt < 1 && TotalEvents == 0`; if the condition is
not yet met and no further signal will ever arrive (`trace` exhausted),
the worker blocks forever, modelled as `none`. -/
def waitLoop (cnt : Int) (ev : eventResults) (trace : List Signal) :
    Option eventResults :=
  if cnt < 1 ∧ ev.TotalEvents = 0 then some ev
  else
    match trace with
    | [] => none
    | Signal.done :: rest => waitLoop (cnt - 1) ev rest
    | Signal.res r :: rest =>
      if r = statusSuccess then
        waitLoop cnt
          { SucceededEvents := ev.SucceededEvents - 1
            FailedEvents := ev.FailedEvents
            TotalEvents := ev.TotalEvents - 1 } rest
      else
        waitLoop cnt
          { SucceededEvents := ev.SucceededEvents
            FailedEvents := ev.FailedEvents - 1
            TotalEvents := ev.TotalEvents - 1 } rest

/-- Outcome of one run of Go `process`: whether the body `event.f` was
invoked and the final value of `event.result`. -/
structure ProcessOutcome where
  invoked : Bool
  result : Nat
deriving DecidableEq, Repr

/-- Go `process`, as a function of the event and the trace of signals its
channels receive. `none` means the worker never exits its wait loop (and
so never finalizes and never runs the body). After the wait loop: a
non-zero success or failure counter marks the event failed without
invoking the body; a done context skips the body leaving `result` as
pre-set; otherwise the body runs and an error sets `result` to failure. -/
def process (event : Event) (trace : List Signal) : Option ProcessOutcome :=
  let cnt : Int := event.fnOpts.waitFor.length
  let ev0 : eventResults :=
    { SucceededEvents := event.fnOpts.ifSuccess.length
      FailedEvents := event.fnOpts.ifFailure.length
      TotalEvents :=
        (event.fnOpts.ifSuccess.length : Int) + event.fnOpts.ifFailure.length }
  match waitLoop cnt ev0 trace with
  | none => none
  | some ev =>
    if ev.SucceededEvents ≠ 0 ∨ ev.FailedEvents ≠ 0 then
      some { invoked := false, result := statusFailure }
    else if event.ctxDone then
      some { invoked := false, result := event.result }
    else if event.FErr then
      some { invoked := true, result := statusFailure }
    else
      some { invoked := true, result := event.result }

/-- The dispatch-loop facet of the scheduler: the queue length, the
`sema` channel (capacity and length), and the number of workers that have
been spawned by `tryDequeue` and have not yet run `replenish`. -/
structure LoopState where
  queueLen : Nat
  semaCap : Nat
  semaLen : Nat
  running : Nat
deriving DecidableEq, Repr

/-- Go `tryDequeue`: return if the queue is empty; otherwise attempt a
non-blocking send into `sema` (succeeds exactly when `len < cap`); on
success dequeue one event and spawn `go s.process(request)`. -/
def tryDequeue (s : LoopState) : LoopState :=
  if s.queueLen = 0 then s
  else if s.semaLen < s.semaCap then
    { s with
      queueLen := s.queueLen - 1
      semaLen := s.semaLen + 1
      running := s.running + 1 }
  else s

/-- Go `replenish`: receive one token from `sema`; run by a worker when it
finishes (its `tickleLoop` call is irrelevant to the limiter). -/
def replenish (s : LoopState) : LoopState :=
  { s with semaLen := s.semaLen - 1, running := s.running - 1 }

/-- An `Enqueue` as seen by the dispatch loop: one more queued event. -/
def submitStep (s : LoopState) : LoopState :=
  { s with queueLen := s.queueLen + 1 }

/-- The dispatch-loop state as `New` creates it: empty queue, `sema` of
capacity `limit` (the source fixes `limit = defaultRequestLimit`) with no
tokens, no workers. -/
def initLoopState (limit : Nat) : LoopState :=
  { queueLen := 0, semaCap := limit, semaLen := 0, running := 0 }

/-- One interleaving step of the system: the loop handles a wake
(`tryDequeue`), a running worker finishes and replenishes, or a caller
submits a job. -/
inductive LoopStep : LoopState → LoopState → Prop
  | tickle (s : LoopState) : LoopStep s (tryDequeue s)
  | finish (s : LoopState) (h : 0 < s.running) : LoopStep s (replenish s)
  | submit (s : LoopState) : LoopStep s (submitStep s)

/-- States reachable from the freshly constructed scheduler under any
interleaving of wakes, worker completions and submissions. -/
inductive LoopReachable (limit : Nat) : LoopState → Prop
  | init : LoopReachable limit (initLoopState limit)
  | step {s t : LoopState} : LoopReachable limit s → LoopStep s t →
      LoopReachable limit t

/-- Spec-side constructor ceiling, for the refinement comparison of the
construction interface: the spec says the concurrency ceiling is
configurable at construction time, with 100 as the default when the
caller does not choose one. -/
def specNewCeiling (concurrencyLimit : Option Nat) : Nat :=
  concurrencyLimit.getD 100

/-! Helper lemmas about the Go-map association lists. -/

theorem lookupD_setA_self {α : Type} (m : List (JobName × α)) (k : JobName)
    (v : α) (d : α) : lookupD (setA m k v) k d = v := by
  induction m with
  | nil => simp [setA, lookupD]
  | cons p rest ih =>
    obtain ⟨k1, v1⟩ := p
    by_cases h : k1 = k
    · simp [setA, lookupD, h]
    · simp [setA, lookupD, h, ih]

theorem lookupD_eraseA_self {α : Type} (m : List (JobName × α)) (k : JobName)
    (d : α) : lookupD (eraseA m k) k d = d := by
  induction m with
  | nil => simp [eraseA, lookupD]
  | cons p rest ih =>
    obtain ⟨k1, v1⟩ := p
    by_cases h : k1 = k
    · simp [eraseA, lookupD, h, ih]
    · simp [eraseA, lookupD, h, ih]

theorem lookupD_appendA_self (m : List (JobName × List Nat)) (k : JobName)
    (v : Nat) : lookupD (appendA m k v) k [] = lookupD m k [] ++ [v] :=
  lookupD_setA_self m k (lookupD m k [] ++ [v]) []

/-! Claim theorems. -/

/-- Claim C1 (code evaluated at the failing inputs): contrary to the
claim, submission does not register the result signal for `onFailure`
names, and `EnqueueWithContext` registers no result signal at all. On a
fresh scheduler, `Enqueue` of job B with `IfFailure ["A"]` leaves
`resultCh["A"]` empty, and `EnqueueWithContext` of job C with
`IfSuccess ["A"]` also leaves `resultCh["A"]` empty. -/
theorem enqueue_ifFailure_not_registered :
    lookupD (Enqueue New ⟨false, "B"⟩ [IfFailure ["A"]] 0).resultCh "A" []
        = [] ∧
    lookupD (EnqueueWithContext New false ⟨false, "C"⟩ [IfSuccess ["A"]]
        0).resultCh "A" [] = [] := by
  decide

/-- Claim C2 (code evaluated at the failing input): submit A (body
errors), then B with `onFailure = \x7bA\x7d`. The resulting scheduler has an
empty `resultCh` map, so A's finalization fans its result out to nobody
(`resultTargets = []`), and B's worker — which must consume one result
signal before its wait loop can exit — blocks forever on an empty signal
trace (`process = none`): B's body is never invoked, contradicting the
claim that it runs normally. -/
theorem ifFailure_dependent_blocks :
    (Enqueue (Enqueue New ⟨true, "A"⟩ [] 0) ⟨false, "B"⟩
        [IfFailure ["A"]] 1).resultCh = [] ∧
    (removeJob (Enqueue (Enqueue New ⟨true, "A"⟩ [] 0) ⟨false, "B"⟩
        [IfFailure ["A"]] 1) (newEvent false ⟨true, "A"⟩ [] 0)).resultTargets
        = [] ∧
    process (newEvent false ⟨false, "B"⟩ [IfFailure ["A"]] 1) [] = none := by
  decide

/-- Claim C3 counterexample: starting from a state whose `resultCh` map
holds the entry `("A", [7])`, finalizing job A via `removeJob` leaves
that conditional result-waiter entry in place (`lookupD` still returns
`[7]`, not the deleted-entry default `[]`), refuting the claim that both
map entries are deleted. -/
theorem removeJob_keeps_resultCh_entry :
    lookupD (removeJob { New with resultCh := [("A", [7])] }
        (newEvent false ⟨false, "A"⟩ [] 9)).state.resultCh "A" [] = [7] ∧
    ¬ ([7] = ([] : List Nat)) := by
  decide

/-- Claim C3 as amended: when a job finalizes, `removeJob` fans the
completion signal out to every entry of `jobsWaitFor[name]` and the
result signal to every entry of `resultCh[name]`, then deletes the
unconditional waiter-list entry and the active-set entry for the name;
the conditional result-waiter map is left entirely unchanged. -/
theorem removeJob_deletes_waiters_and_active (s : TicklerState)
    (event : Event) :
    (removeJob s event).completionTargets
        = lookupD s.jobsWaitFor event.Job [] ∧
    (removeJob s event).resultTargets = lookupD s.resultCh event.Job [] ∧
    lookupD (removeJob s event).state.jobsWaitFor event.Job [] = [] ∧
    lookupD (removeJob s event).state.currentJobs event.Job false = false ∧
    (removeJob s event).state.resultCh = s.resultCh :=
  ⟨rfl, rfl, lookupD_eraseA_self s.jobsWaitFor event.Job [],
    lookupD_eraseA_self s.currentJobs event.Job false, rfl⟩

/-- Claim C4 counterexample: a freshly created job descriptor has
`result = statusSuccess`, not the pending value `statusUndefined`, so the
result field does not start Pending. -/
theorem newEvent_result_not_pending :
    (newEvent false ⟨false, "J"⟩ [] 0).result = statusSuccess ∧
    ¬ ((newEvent false ⟨false, "J"⟩ [] 0).result = statusUndefined) := by
  decide

/-- Claim C4 as amended: every newly created job descriptor starts with
`result = statusSuccess` (the pre-set default, not Pending), and whenever
the worker terminates, the final result is either that default Success or
Failure — and it is Failure only when the body was skipped (a failed
conditional gate, the only skip that fails) or the body ran and returned
an error. -/
theorem result_starts_success_fails_at_most_once (c : Bool)
    (request : Request) (opts : List EventOption) (id : Nat)
    (trace : List Signal) (o : ProcessOutcome)
    (h : process (newEvent c request opts id) trace = some o) :
    (newEvent c request opts id).result = statusSuccess ∧
    (o.result = statusSuccess ∨ o.result = statusFailure) ∧
    (o.result = statusFailure → o.invoked = false ∨ request.FErr = true) := by
  refine ⟨rfl, ?_⟩
  simp only [process] at h
  split at h
  · exact absurd h (by simp)
  · split at h
    · rw [Option.some_inj] at h
      subst h
      exact ⟨Or.inr rfl, fun _ => Or.inl rfl⟩
    · split at h
      · rw [Option.some_inj] at h
        subst h
        exact ⟨Or.inl rfl, fun hf =>
          absurd hf (by simp [newEvent, statusSuccess, statusFailure])⟩
      · split at h
        · rw [Option.some_inj] at h
          subst h
          refine ⟨Or.inr rfl, fun _ => Or.inr ?_⟩
          assumption
        · rw [Option.some_inj] at h
          subst h
          exact ⟨Or.inl rfl, fun hf =>
            absurd hf (by simp [newEvent, statusSuccess, statusFailure])⟩

/-- Claim C4 witness: a dependency-free job with a non-erring body and a
live context runs its body and finishes with the default Success. -/
theorem result_starts_success_fails_at_most_once_witness :
    process (newEvent false ⟨false, "A"⟩ [] 0) [] = some ⟨true, statusSuccess⟩ ∧
    ((newEvent false ⟨false, "A"⟩ [] 0).result = statusSuccess ∧
     (ProcessOutcome.result ⟨true, statusSuccess⟩ = statusSuccess ∨
      ProcessOutcome.result ⟨true, statusSuccess⟩ = statusFailure) ∧
     (ProcessOutcome.result ⟨true, statusSuccess⟩ = statusFailure →
      ProcessOutcome.invoked ⟨true, statusSuccess⟩ = false ∨
      Request.FErr ⟨false, "A"⟩ = true)) :=
  ⟨by decide, result_starts_success_fails_at_most_once false ⟨false, "A"⟩ [] 0
    [] ⟨true, statusSuccess⟩ (by decide)⟩

/-- Claim C5: a job J submitted via `Enqueue` with `onSuccess = \x7ba\x7d` is
registered to receive a's result (its result channel is appended to
`resultCh[a]`), and when that result arrives as Failure, J's worker exits
its wait loop with a non-zero success counter, never invokes the body,
and finalizes with result Failure. -/
theorem onSuccess_failure_gates_dependent (s : TicklerState)
    (request : Request) (a : JobName) (id : Nat) :
    lookupD (Enqueue s request [IfSuccess [a]] id).resultCh a []
        = lookupD s.resultCh a [] ++ [id] ∧
    process (newEvent false request [IfSuccess [a]] id)
        [Signal.res statusFailure]
        = some { invoked := false, result := statusFailure } := by
  constructor
  · have h1 : (Enqueue s request [IfSuccess [a]] id).resultCh
        = appendA s.resultCh a id := by
      simp only [Enqueue, tickleLoop]
      split <;> rfl
    rw [h1]
    exact lookupD_appendA_self s.resultCh a id
  · rfl
/-- Claim C6: in every reachable state of the dispatch system, the number
of in-flight workers (each of which was admitted by one non-blocking
`sema` send in `tryDequeue` and gives its token back in `replenish`)
never exceeds the `sema` capacity, i.e. the configured concurrency
ceiling; executing bodies are a subset of in-flight workers. -/
theorem running_le_ceiling {limit : Nat} {s : LoopState}
    (h : LoopReachable limit s) : s.running ≤ limit := by
  have key : s.running ≤ s.semaLen ∧ s.semaLen ≤ s.semaCap ∧
      s.semaCap = limit := by
    induction h with
    | init => exact ⟨Nat.le_refl 0, Nat.zero_le _, rfl⟩
    | step hr hstep ih =>
      obtain ⟨i1, i2, i3⟩ := ih
      cases hstep with
      | tickle =>
        unfold tryDequeue
        split
        · exact ⟨i1, i2, i3⟩
        · split
          · next hcap => exact ⟨Nat.succ_le_succ i1, hcap, i3⟩
          · exact ⟨i1, i2, i3⟩
      | finish hrun =>
        exact ⟨Nat.sub_le_sub_right i1 1,
          Nat.le_trans (Nat.sub_le _ _) i2, i3⟩
      | submit => exact ⟨i1, i2, i3⟩
  obtain ⟨i1, i2, i3⟩ := key
  omega

/-- Claim C6 witness: after one submission and one dispatch from a fresh
scheduler with ceiling 100, the worker count is within the ceiling. -/
theorem running_le_ceiling_witness :
    (tryDequeue (submitStep (initLoopState 100))).running ≤ 100 :=
  running_le_ceiling
    (LoopReachable.step
      (LoopReachable.step LoopReachable.init (LoopStep.submit _))
      (LoopStep.tickle _))

/-- Claim C7 counterexample: on a fresh scheduler two consecutive wake
requests are both accepted — two wakes are pending at once — because the
`loopSignal` channel is created with capacity 100, not 1; so it is false
that at most a single wake is ever pending. -/
theorem two_wakes_pending :
    (tickleLoop (tickleLoop New)).loopSignal = 2 ∧ ¬ ((2 : Nat) ≤ 1) := by
  decide

/-- Claim C7 as amended: the wake channel's capacity is
`defaultRequestLimit = 100`, so wake requests coalesce only at 100: the
pending-wake count never exceeds 100, and a further wake request is
dropped exactly when 100 wakes are already pending. -/
theorem wake_capacity_hundred (s : TicklerState)
    (h : s.loopSignal ≤ defaultRequestLimit) :
    (tickleLoop s).loopSignal ≤ defaultRequestLimit ∧
    (s.loopSignal = defaultRequestLimit → tickleLoop s = s) := by
  unfold tickleLoop
  split
  · next hlt =>
    constructor
    · exact hlt
    · intro he
      rw [he] at hlt
      exact absurd hlt (Nat.lt_irrefl _)
  · exact ⟨h, fun _ => rfl⟩

/-- Claim C7 witness: at exactly 100 pending wakes, a further wake is
dropped and the count stays at the capacity. -/
theorem wake_capacity_hundred_witness :
    ({ New with loopSignal := 100 } : TicklerState).loopSignal
        ≤ defaultRequestLimit ∧
    ((tickleLoop { New with loopSignal := 100 }).loopSignal
        ≤ defaultRequestLimit ∧
     (({ New with loopSignal := 100 } : TicklerState).loopSignal
        = defaultRequestLimit →
      tickleLoop { New with loopSignal := 100 }
        = { New with loopSignal := 100 })) :=
  ⟨by decide, wake_capacity_hundred { New with loopSignal := 100 } (by decide)⟩

/-- Claim C8 counterexample: the scheduler constructor `New` takes no
concurrency-limit argument and always builds the `sema` channel with
capacity 100, so the ceiling is not configurable: it cannot honour the
spec-side constructor's ceiling for a caller choosing limit 5. -/
theorem limit_not_configurable :
    New.semaCap = 100 ∧ specNewCeiling (some 5) = 5 ∧
    ¬ (New.semaCap = specNewCeiling (some 5)) := by
  decide

/-- Claim C8 as amended: `New` takes no concurrency-limit argument; the
ceiling is fixed at `defaultRequestLimit = 100`, agreeing with the
spec-side constructor only in its default (caller-chose-nothing) case. -/
theorem new_ceiling_fixed_default :
    New.semaCap = defaultRequestLimit ∧ defaultRequestLimit = 100 ∧
    New.semaCap = specNewCeiling none :=
  ⟨rfl, rfl, rfl⟩

/-- Claim C9: `Stop` is idempotent — `Stop` replaces `s.ctx` by an
immediately cancelled child context, so observably it sets the
cancellation state to true; a second call leaves the state exactly as the
first call left it. -/
theorem stop_idempotent (s : TicklerState) : Stop (Stop s) = Stop s := rfl

/-- Claim C10: repeated dependency options are last-wins — each of
`WaitForJobs`, `IfSuccess` and `IfFailure` assigns its slice outright, so
applying the option twice on one submission leaves exactly the second
argument list in the descriptor and discards the first. -/
theorem options_last_wins (c : Bool) (request : Request)
    (xs ys : List JobName) (id : Nat) :
    (newEvent c request [WaitForJobs xs, WaitForJobs ys] id).fnOpts.waitFor
        = ys ∧
    (newEvent c request [IfSuccess xs, IfSuccess ys] id).fnOpts.ifSuccess
        = ys ∧
    (newEvent c request [IfFailure xs, IfFailure ys] id).fnOpts.ifFailure
        = ys :=
  ⟨rfl, rfl, rfl⟩

end Tickler
